import Mathlib

set_option maxRecDepth 8000

/-!
Verification of the XboxTests repository's test-case synchronization script
(`src/tests/TestData/AzureDevOpsClient.mjs`) and the exponential-backoff
retry helper.  The JavaScript source is shallowly embedded: strings are
`String`/`List Char`, JS `undefined` is `Option.none`, thrown errors are
`Except.error`, and the remote HTTP API is an explicit oracle describing the
outcome of each call.
-/

namespace XboxSync

/-- One test step from the JSON source: an action and its expected result. -/
structure StepDefinition where
  action : String
  expected : String
  deriving DecidableEq

/-- A test-case definition as read from the JSON file.  Fields that may be
absent in the JSON (JS `undefined`) are `Option`. -/
structure TestCaseDef where
  id : Option String
  title : Option String
  priority : Option Nat
  category : Option String
  tags : Option (List String)
  steps : Option (List StepDefinition)
  deriving DecidableEq

/-- JS truthiness of an optional string: `undefined` and `""` are falsy. -/
def truthyS : Option String → Bool
  | none => false
  | some s => !(s == "")

/-- JS truthiness of an optional number: `undefined` and `0` are falsy. -/
def truthyN : Option Nat → Bool
  | none => false
  | some n => !(n == 0)

/-- Global replacement of one character by a string inside a character list;
models `String.prototype.replace` with a single-character `/g` pattern. -/
def replaceAllChar (c : Char) (r : List Char) : List Char → List Char
  | [] => []
  | x :: xs => (if x = c then r else [x]) ++ replaceAllChar c r xs

/-- `xmlEscape` from AzureDevOpsClient.mjs: three chained global replaces,
`&` first, then `<`, then `>`. -/
def xmlEscape (s : String) : String :=
  ⟨replaceAllChar '>' "&gt;".data
    (replaceAllChar '<' "&lt;".data
      (replaceAllChar '&' "&amp;".data s.data))⟩

/-- Character-wise specification of the escaper: `&`, `<`, `>` become
entities, every other character is kept as-is. -/
def escChar (c : Char) : List Char :=
  if c = '&' then "&amp;".data
  else if c = '<' then "&lt;".data
  else if c = '>' then "&gt;".data
  else [c]

/-- Concatenation of the images of a list-valued map (JS `flatMap`). -/
def concatMapL (f : α → List β) : List α → List β
  | [] => []
  | x :: xs => f x ++ concatMapL f xs

theorem replaceAllChar_append (c : Char) (r a b : List Char) :
    replaceAllChar c r (a ++ b) = replaceAllChar c r a ++ replaceAllChar c r b := by
  induction a with
  | nil => rfl
  | cons x xs ih => simp [replaceAllChar, ih, List.append_assoc]

theorem xmlEscape_data (s : String) :
    (xmlEscape s).data = concatMapL escChar s.data := by
  show replaceAllChar '>' "&gt;".data
      (replaceAllChar '<' "&lt;".data
        (replaceAllChar '&' "&amp;".data s.data)) = concatMapL escChar s.data
  induction s.data with
  | nil => rfl
  | cons x xs ih =>
    by_cases h1 : x = '&'
    · subst h1
      simp [replaceAllChar, replaceAllChar_append, concatMapL, escChar] at ih ⊢
      exact ih
    · by_cases h2 : x = '<'
      · subst h2
        simp [replaceAllChar, replaceAllChar_append, concatMapL, escChar, h1] at ih ⊢
        exact ih
      · by_cases h3 : x = '>'
        · subst h3
          simp [replaceAllChar, replaceAllChar_append, concatMapL, escChar, h1, h2] at ih ⊢
          exact ih
        · simp [replaceAllChar, replaceAllChar_append, concatMapL, escChar, h1, h2, h3] at ih ⊢
          exact ih

/-- No raw angle bracket occurs in the character list. -/
def noAngle (l : List Char) : Bool :=
  l.all fun c => !(c == '<') && !(c == '>')

/-- Does the character list start with the tail of one of the three entities
(`amp;`, `lt;`, `gt;`)? -/
def entityAt : List Char → Bool
  | 'a' :: 'm' :: 'p' :: ';' :: _ => true
  | 'l' :: 't' :: ';' :: _ => true
  | 'g' :: 't' :: ';' :: _ => true
  | _ => false

/-- Every `&` in the list begins one of the entities `&amp;`, `&lt;`, `&gt;`. -/
def ampOk : List Char → Bool
  | [] => true
  | c :: rest => (if c = '&' then entityAt rest else true) && ampOk rest

/-- Escaped character data: no raw angle brackets and only entity ampersands. -/
def textOk (t : String) : Bool :=
  noAngle t.data && ampOk t.data

theorem noAngle_append (a b : List Char) :
    noAngle (a ++ b) = (noAngle a && noAngle b) := by
  simp [noAngle, List.all_append]

theorem escChar_noAngle (c : Char) : noAngle (escChar c) = true := by
  by_cases h1 : c = '&'
  · subst h1; decide
  · by_cases h2 : c = '<'
    · subst h2; decide
    · by_cases h3 : c = '>'
      · subst h3; decide
      · have he : escChar c = [c] := by simp [escChar, h1, h2, h3]
        rw [he]
        simp [noAngle]
        constructor
        · intro h; exact h2 h
        · intro h; exact h3 h

theorem xmlEscape_noAngle (s : String) : noAngle (xmlEscape s).data = true := by
  rw [xmlEscape_data]
  induction s.data with
  | nil => rfl
  | cons x xs ih =>
    simp only [concatMapL, noAngle_append]
    rw [escChar_noAngle x, ih]
    rfl

theorem ampOk_escChar_append (c : Char) (rest : List Char) :
    ampOk (escChar c ++ rest) = ampOk rest := by
  by_cases h1 : c = '&'
  · subst h1
    show ampOk ('&' :: 'a' :: 'm' :: 'p' :: ';' :: rest) = ampOk rest
    simp [ampOk, entityAt]
  · by_cases h2 : c = '<'
    · subst h2
      show ampOk ('&' :: 'l' :: 't' :: ';' :: rest) = ampOk rest
      simp [ampOk, entityAt]
    · by_cases h3 : c = '>'
      · subst h3
        show ampOk ('&' :: 'g' :: 't' :: ';' :: rest) = ampOk rest
        simp [ampOk, entityAt]
      · have he : escChar c = [c] := by simp [escChar, h1, h2, h3]
        rw [he]
        show ampOk (c :: rest) = ampOk rest
        simp [ampOk, h1]

theorem xmlEscape_ampOk (s : String) : ampOk (xmlEscape s).data = true := by
  rw [xmlEscape_data]
  induction s.data with
  | nil => rfl
  | cons x xs ih =>
    simp only [concatMapL]
    rw [ampOk_escChar_append, ih]

theorem xmlEscape_textOk (s : String) : textOk (xmlEscape s) = true := by
  simp [textOk, xmlEscape_noAngle, xmlEscape_ampOk]

/-! ### XML fragments

A small syntax of XML element trees, used to state that the generated step
markup is a well-formed fragment: it is the rendering of an element tree
whose text nodes are escaped character data and whose names and attribute
values are free of markup characters. -/

mutual
inductive Xml where
  | elem (name : String) (attrs : List (String × String)) (children : XmlList)
  | text (t : String)
inductive XmlList where
  | nil
  | cons (x : Xml) (xs : XmlList)
end

/-- Render an attribute list as ` key="value"` pairs. -/
def renderAttrs (attrs : List (String × String)) : List Char :=
  concatMapL (fun kv => " ".data ++ kv.1.data ++ "=\"".data ++ kv.2.data ++ "\"".data) attrs

mutual
def Xml.render : Xml → List Char
  | .text t => t.data
  | .elem name attrs children =>
      "<".data ++ name.data ++ renderAttrs attrs ++ ">".data ++
        XmlList.render children ++ "</".data ++ name.data ++ ">".data
def XmlList.render : XmlList → List Char
  | .nil => []
  | .cons x xs => Xml.render x ++ XmlList.render xs
end

/-- A legal tag or attribute name: non-empty and alphanumeric. -/
def nameOk (s : String) : Bool :=
  !(s == "") && s.data.all fun c => c.isAlphanum

/-- A legal attribute: a legal name and a value with no markup characters. -/
def attrOk (kv : String × String) : Bool :=
  nameOk kv.1 && kv.2.data.all fun c => !(c == '<') && !(c == '>') && !(c == '"') && !(c == '&')

mutual
def Xml.wf : Xml → Bool
  | .text t => textOk t
  | .elem name attrs children => nameOk name && attrs.all attrOk && XmlList.wf children
def XmlList.wf : XmlList → Bool
  | .nil => true
  | .cons x xs => Xml.wf x && XmlList.wf xs
end

/-- Concatenation of a list of strings (JS `Array.prototype.join("")`). -/
def strJoin : List String → String
  | [] => ""
  | s :: rest => s ++ strJoin rest

/-- JS `Array.prototype.map` whose callback also receives the index. -/
def mapIdxFrom (f : Nat → α → β) (i : Nat) : List α → List β
  | [] => []
  | x :: xs => f i x :: mapIdxFrom f (i + 1) xs

/-- The template literal for one `<step>` element in `buildStepsXml`
(`i` is the zero-based map index; the rendered id is `i + 1`). -/
def stepXml (s : StepDefinition) (i : Nat) : String :=
  "<step id=\"" ++ Nat.repr (i + 1) ++
    "\" type=\"ActionStep\">\n  <parameterizedString isformatted=\"true\">" ++
    xmlEscape s.action ++
    "</parameterizedString>\n  <parameterizedString isformatted=\"true\">" ++
    xmlEscape s.expected ++
    "</parameterizedString>\n</step>"

/-- `buildStepsXml` from AzureDevOpsClient.mjs: the joined step elements
wrapped in a `<steps id="0">` root. -/
def buildStepsXml (steps : List StepDefinition) : String :=
  "<steps id=\"0\">" ++ strJoin (mapIdxFrom (fun i s => stepXml s i) 0 steps) ++ "</steps>"

/-- The element tree whose rendering is one `<step>` template instance. -/
def stepTree (i : Nat) (s : StepDefinition) : Xml :=
  .elem "step" [("id", Nat.repr (i + 1)), ("type", "ActionStep")]
    (.cons (.text "\n  ")
     (.cons (.elem "parameterizedString" [("isformatted", "true")]
              (.cons (.text (xmlEscape s.action)) .nil))
      (.cons (.text "\n  ")
       (.cons (.elem "parameterizedString" [("isformatted", "true")]
                (.cons (.text (xmlEscape s.expected)) .nil))
        (.cons (.text "\n") .nil)))))

/-- The element trees of a step list, starting at map index `i`. -/
def stepTrees (i : Nat) : List StepDefinition → XmlList
  | [] => .nil
  | s :: rest => .cons (stepTree i s) (stepTrees (i + 1) rest)

/-- The element tree whose rendering is the whole generated steps markup. -/
def stepsTree (steps : List StepDefinition) : Xml :=
  .elem "steps" [("id", "0")] (stepTrees 0 steps)

theorem sdata_append (a b : String) : (a ++ b).data = a.data ++ b.data := rfl

theorem stepXml_render (i : Nat) (s : StepDefinition) :
    (stepXml s i).data = Xml.render (stepTree i s) := by
  have e1 : ("<step id=\"" : String).data =
      ("<" : String).data ++ ("step" : String).data ++ (" " : String).data ++
        ("id" : String).data ++ ("=\"" : String).data := by decide
  have e2 : ("\" type=\"ActionStep\">\n  <parameterizedString isformatted=\"true\">" : String).data =
      ("\"" : String).data ++ (" " : String).data ++ ("type" : String).data ++
        ("=\"" : String).data ++ ("ActionStep" : String).data ++ ("\"" : String).data ++
        (">" : String).data ++ ("\n  " : String).data ++ ("<" : String).data ++
        ("parameterizedString" : String).data ++ (" " : String).data ++
        ("isformatted" : String).data ++ ("=\"" : String).data ++ ("true" : String).data ++
        ("\"" : String).data ++ (">" : String).data := by decide
  have e3 : ("</parameterizedString>\n  <parameterizedString isformatted=\"true\">" : String).data =
      ("</" : String).data ++ ("parameterizedString" : String).data ++ (">" : String).data ++
        ("\n  " : String).data ++ ("<" : String).data ++
        ("parameterizedString" : String).data ++ (" " : String).data ++
        ("isformatted" : String).data ++ ("=\"" : String).data ++ ("true" : String).data ++
        ("\"" : String).data ++ (">" : String).data := by decide
  have e4 : ("</parameterizedString>\n</step>" : String).data =
      ("</" : String).data ++ ("parameterizedString" : String).data ++ (">" : String).data ++
        ("\n" : String).data ++ ("</" : String).data ++ ("step" : String).data ++
        (">" : String).data := by decide
  simp only [stepXml, sdata_append, stepTree, Xml.render, XmlList.render, renderAttrs,
    concatMapL, e1, e2, e3, e4, List.append_assoc, List.append_nil, List.nil_append,
    List.cons_append]

theorem stepTrees_render (steps : List StepDefinition) : ∀ i : Nat,
    XmlList.render (stepTrees i steps) =
      (strJoin (mapIdxFrom (fun i s => stepXml s i) i steps)).data := by
  induction steps with
  | nil => intro i; rfl
  | cons s rest ih =>
    intro i
    simp only [stepTrees, XmlList.render, mapIdxFrom, strJoin, sdata_append,
      stepXml_render, ih]

theorem buildStepsXml_render (steps : List StepDefinition) :
    (buildStepsXml steps).data = Xml.render (stepsTree steps) := by
  have e5 : ("<steps id=\"0\">" : String).data =
      ("<" : String).data ++ ("steps" : String).data ++ (" " : String).data ++
        ("id" : String).data ++ ("=\"" : String).data ++ ("0" : String).data ++
        ("\"" : String).data ++ (">" : String).data := by decide
  have e6 : ("</steps>" : String).data =
      ("</" : String).data ++ ("steps" : String).data ++ (">" : String).data := by decide
  simp only [buildStepsXml, sdata_append, stepsTree, Xml.render, XmlList.render,
    renderAttrs, concatMapL, e5, e6, List.append_assoc, List.append_nil, List.nil_append,
    List.cons_append, stepTrees_render]

/-- The decimal digit characters. -/
def digitsStr : List Char := ("0123456789" : String).data

theorem toDigitsCore_mem (fuel : Nat) : ∀ (n : Nat) (acc : List Char),
    (∀ c ∈ acc, c ∈ digitsStr) → ∀ c ∈ Nat.toDigitsCore 10 fuel n acc, c ∈ digitsStr := by
  induction fuel with
  | zero => intro n acc hacc c hc; simp [Nat.toDigitsCore] at hc; exact hacc c hc
  | succ fuel ih =>
    intro n acc hacc c hc
    have hd : Nat.digitChar (n % 10) ∈ digitsStr := by
      have h10 : n % 10 < 10 := Nat.mod_lt _ (by norm_num)
      revert h10
      generalize n % 10 = m
      revert m
      decide
    simp only [Nat.toDigitsCore] at hc
    split at hc
    · rw [List.mem_cons] at hc
      rcases hc with h | h
      · exact h ▸ hd
      · exact hacc c h
    · exact ih (n / 10) _ (by
        intro d hdm
        rw [List.mem_cons] at hdm
        rcases hdm with h | h
        · exact h ▸ hd
        · exact hacc d h) c hc

theorem digitChars_attrOk : ∀ c ∈ digitsStr,
    (!(c == '<') && !(c == '>') && !(c == '"') && !(c == '&')) = true := by decide

theorem natRepr_attrChars (n : Nat) :
    ((Nat.repr n).data.all fun c => !(c == '<') && !(c == '>') && !(c == '"') && !(c == '&')) = true := by
  rw [List.all_eq_true]
  intro c hc
  apply digitChars_attrOk
  have h0 : (Nat.repr n).data = Nat.toDigitsCore 10 (n + 1) n [] := rfl
  rw [h0] at hc
  exact toDigitsCore_mem (n + 1) n [] (by simp) c hc

theorem stepTree_wf (i : Nat) (s : StepDefinition) : Xml.wf (stepTree i s) = true := by
  simp only [stepTree, Xml.wf, XmlList.wf, List.all_cons, List.all_nil, attrOk, textOk,
    Bool.and_eq_true, Bool.and_true, xmlEscape_textOk, natRepr_attrChars,
    xmlEscape_noAngle, xmlEscape_ampOk]
  refine ⟨⟨?_, ?_⟩, ?_⟩ <;> decide

theorem stepTrees_wf (steps : List StepDefinition) : ∀ i : Nat,
    XmlList.wf (stepTrees i steps) = true := by
  induction steps with
  | nil => intro i; rfl
  | cons s rest ih =>
    intro i
    simp only [stepTrees, XmlList.wf, Bool.and_eq_true]
    exact ⟨stepTree_wf i s, ih (i + 1)⟩

theorem stepsTree_wf (steps : List StepDefinition) : Xml.wf (stepsTree steps) = true := by
  simp only [stepsTree, Xml.wf, Bool.and_eq_true]
  exact ⟨by decide, stepTrees_wf steps 0⟩

/-! ### Tag string and field-patch body (`buildTestCaseBody`) -/

/-- The entries of the `tagParts` array before `filter(Boolean)`: the explicit
tags, then the conditional `LogicalID:` entry, then the conditional
`Category:` entry (`null` is `none`). -/
def buildTagParts (tc : TestCaseDef) : List (Option String) :=
  (tc.tags.getD []).map some ++
    [if truthyS tc.id then some ("LogicalID:" ++ tc.id.getD "") else none,
     if truthyS tc.category then some ("Category:" ++ tc.category.getD "") else none]

/-- JS `Array.prototype.filter(Boolean)` on an array of strings and nulls:
keeps exactly the non-null, non-empty strings. -/
def filterBoolean (l : List (Option String)) : List String :=
  l.filterMap fun o =>
    match o with
    | none => none
    | some s => if s = "" then none else some s

/-- The synthesized `System.Tags` value: `tagParts.join("; ")`. -/
def buildTags (tc : TestCaseDef) : String :=
  String.intercalate "; " (filterBoolean (buildTagParts tc))

/-- The tag string exactly as claim C6 words it: the `; `-join of all the
explicit tags in their original order, then `LogicalID:<id>` when `id` is
present, then `Category:<category>` when `category` is present. -/
def specTagsC6 (tc : TestCaseDef) : String :=
  String.intercalate "; "
    ((tc.tags.getD []) ++
      (match tc.id with | some i => ["LogicalID:" ++ i] | none => []) ++
      (match tc.category with | some c => ["Category:" ++ c] | none => []))

/-- A JSON value in the field-patch document. -/
inductive JsonValue where
  | str (v : String)
  | num (v : Nat)
  | undef
  deriving DecidableEq

/-- One operation of the JSON-patch body sent to the work-item API. -/
structure PatchOp where
  op : String
  path : String
  value : JsonValue
  deriving DecidableEq

def jsonOfOptStr : Option String → JsonValue
  | none => .undef
  | some s => .str s

/-- `buildTestCaseBody` from AzureDevOpsClient.mjs: three base operations
(Title, Steps, Tags) plus a Priority operation pushed only when
`tc.priority` is truthy. -/
def buildTestCaseBody (tc : TestCaseDef) : List PatchOp :=
  [⟨"add", "/fields/System.Title", jsonOfOptStr tc.title⟩,
   ⟨"add", "/fields/Microsoft.VSTS.TCM.Steps", .str (buildStepsXml (tc.steps.getD []))⟩,
   ⟨"add", "/fields/System.Tags", .str (buildTags tc)⟩] ++
  (if truthyN tc.priority then
     [⟨"add", "/fields/Microsoft.VSTS.Common.Priority", .num (tc.priority.getD 0)⟩]
   else [])

/-! ### The synchronization loop

The remote API is an oracle `env : Nat → RemoteBehavior` giving, for the
definition at each list position, the outcome of the remote calls the loop
would make for it: both calls succeed (with the created work-item id),
`createTestCase` throws, or `addToSuite` throws. -/

/-- The main loop's validation test; its negation
(`!tc.title || !Array.isArray(tc.steps) || tc.steps.length === 0`)
takes the skip branch. -/
def isValid (tc : TestCaseDef) : Bool :=
  truthyS tc.title &&
    (match tc.steps with
     | some l => !l.isEmpty
     | none => false)

inductive RemoteBehavior where
  | ok (workItemId : Nat)
  | createFails (msg : String)
  | addFails (workItemId : Nat) (msg : String)
  deriving DecidableEq

/-- A remote HTTP call made by the loop, in order. -/
inductive RemoteCall where
  | create (body : List PatchOp)
  | addToSuite (workItemId : Nat)
  deriving DecidableEq

/-- How one definition ended: the try-branch completed (`created`), the
validation skip branch ran (`skipped`), or the catch branch ran (`failed`). -/
inductive Outcome where
  | created (workItemId : Nat)
  | skipped (reason : String)
  | failed (reason : String)
  deriving DecidableEq

/-- An entry pushed onto `failedTestCases`. -/
structure FailedRecord where
  id : Option String
  title : Option String
  reason : String
  deriving DecidableEq

/-- One iteration's classification and the remote calls it makes:
an invalid definition takes the skip branch with no calls; a valid one
calls `createTestCase` (and `addToSuite` unless create threw). -/
def processOne (tc : TestCaseDef) (beh : RemoteBehavior) : Outcome × List RemoteCall :=
  if isValid tc then
    match beh with
    | .ok wid => (.created wid, [.create (buildTestCaseBody tc), .addToSuite wid])
    | .createFails msg => (.failed msg, [.create (buildTestCaseBody tc)])
    | .addFails wid msg =>
        (.failed msg, [.create (buildTestCaseBody tc), .addToSuite wid])
  else
    (.skipped "Missing title or steps", [])

def isCreated : Outcome → Bool
  | .created _ => true
  | _ => false

def isSkipped : Outcome → Bool
  | .skipped _ => true
  | _ => false

def isFailedO : Outcome → Bool
  | .failed _ => true
  | _ => false

/-- The record the loop pushes onto `failedTestCases` for one definition:
both the skip branch and the catch branch push `{id, title, reason}`;
the success branch pushes nothing. -/
def recordOf (tc : TestCaseDef) : Outcome → List FailedRecord
  | .created _ => []
  | .skipped r => [⟨tc.id, tc.title, r⟩]
  | .failed r => [⟨tc.id, tc.title, r⟩]

/-- The mutable state of the main loop: the two counters and the
`failedTestCases` array of the source, plus the derived outcome
classification and the trace of remote calls. -/
structure RunState where
  successCount : Nat
  failedCount : Nat
  failedTestCases : List FailedRecord
  outcomes : List Outcome
  calls : List RemoteCall
  deriving DecidableEq

def initState : RunState := ⟨0, 0, [], [], []⟩

/-- One iteration of the `for (const tc of payload.testCases)` loop:
`successCount++` on the success branch; `failedCount++` and a record push on
both the skip branch and the catch branch. -/
def stepState (st : RunState) (tc : TestCaseDef) (beh : RemoteBehavior) : RunState :=
  let oc := processOne tc beh
  { successCount := st.successCount + (if isCreated oc.1 then 1 else 0),
    failedCount := st.failedCount + (if isCreated oc.1 then 0 else 1),
    failedTestCases := st.failedTestCases ++ recordOf tc oc.1,
    outcomes := st.outcomes ++ [oc.1],
    calls := st.calls ++ oc.2 }

def runLoop (env : Nat → RemoteBehavior) : Nat → RunState → List TestCaseDef → RunState
  | _, st, [] => st
  | i, st, tc :: rest => runLoop env (i + 1) (stepState st tc (env i)) rest

/-- The whole sync run over the parsed test-case list. -/
def runSync (defs : List TestCaseDef) (env : Nat → RemoteBehavior) : RunState :=
  runLoop env 0 initState defs

/-- `process.exit(failedCount > 0 ? 1 : 0)`. -/
def exitCode (st : RunState) : Nat :=
  if st.failedCount > 0 then 1 else 0

def flattenL (l : List (List α)) : List α :=
  concatMapL (fun x => x) l

/-- The outcome of the definition at position `i`. -/
def defOutcome (env : Nat → RemoteBehavior) (i : Nat) (tc : TestCaseDef) : Outcome :=
  (processOne tc (env i)).1

/-- The remote calls made for the definition at position `i`. -/
def defCalls (env : Nat → RemoteBehavior) (i : Nat) (tc : TestCaseDef) : List RemoteCall :=
  (processOne tc (env i)).2

/-- The `failedTestCases` entries pushed for the definition at position `i`. -/
def defRecords (env : Nat → RemoteBehavior) (i : Nat) (tc : TestCaseDef) : List FailedRecord :=
  recordOf tc (defOutcome env i tc)

/-- Per-definition outcomes of a run, in list order. -/
def runOutcomes (defs : List TestCaseDef) (env : Nat → RemoteBehavior) : List Outcome :=
  mapIdxFrom (defOutcome env) 0 defs

/-- Per-definition remote-call lists of a run, in list order. -/
def runCallsPer (defs : List TestCaseDef) (env : Nat → RemoteBehavior) : List (List RemoteCall) :=
  mapIdxFrom (defCalls env) 0 defs

/-- Per-definition `failedTestCases` contributions of a run, in list order. -/
def runRecordsPer (defs : List TestCaseDef) (env : Nat → RemoteBehavior) : List (List FailedRecord) :=
  mapIdxFrom (defRecords env) 0 defs

theorem runLoop_outcomes (env : Nat → RemoteBehavior) :
    ∀ (l : List TestCaseDef) (i : Nat) (st : RunState),
    (runLoop env i st l).outcomes = st.outcomes ++ mapIdxFrom (defOutcome env) i l := by
  intro l
  induction l with
  | nil => intro i st; simp [runLoop, mapIdxFrom]
  | cons tc rest ih =>
    intro i st
    simp [runLoop, ih, stepState, mapIdxFrom, defOutcome, List.append_assoc]

theorem runLoop_calls (env : Nat → RemoteBehavior) :
    ∀ (l : List TestCaseDef) (i : Nat) (st : RunState),
    (runLoop env i st l).calls = st.calls ++ flattenL (mapIdxFrom (defCalls env) i l) := by
  intro l
  induction l with
  | nil => intro i st; simp [runLoop, mapIdxFrom, flattenL, concatMapL]
  | cons tc rest ih =>
    intro i st
    simp [runLoop, ih, stepState, mapIdxFrom, defCalls, flattenL, concatMapL, List.append_assoc]

theorem runLoop_records (env : Nat → RemoteBehavior) :
    ∀ (l : List TestCaseDef) (i : Nat) (st : RunState),
    (runLoop env i st l).failedTestCases =
      st.failedTestCases ++ flattenL (mapIdxFrom (defRecords env) i l) := by
  intro l
  induction l with
  | nil => intro i st; simp [runLoop, mapIdxFrom, flattenL, concatMapL]
  | cons tc rest ih =>
    intro i st
    simp [runLoop, ih, stepState, mapIdxFrom, defRecords, defOutcome, flattenL, concatMapL,
      List.append_assoc]

theorem runLoop_successCount (env : Nat → RemoteBehavior) :
    ∀ (l : List TestCaseDef) (i : Nat) (st : RunState),
    (runLoop env i st l).successCount =
      st.successCount + (mapIdxFrom (defOutcome env) i l).countP isCreated := by
  intro l
  induction l with
  | nil => intro i st; simp [runLoop, mapIdxFrom]
  | cons tc rest ih =>
    intro i st
    by_cases h : isCreated (defOutcome env i tc) = true <;>
      · simp [runLoop, ih, stepState, mapIdxFrom, defOutcome, List.countP_cons, h]
        all_goals omega

theorem runLoop_failedCount (env : Nat → RemoteBehavior) :
    ∀ (l : List TestCaseDef) (i : Nat) (st : RunState),
    (runLoop env i st l).failedCount =
      st.failedCount + (mapIdxFrom (defOutcome env) i l).countP (fun o => !isCreated o) := by
  intro l
  induction l with
  | nil => intro i st; simp [runLoop, mapIdxFrom]
  | cons tc rest ih =>
    intro i st
    by_cases h : isCreated (processOne tc (env i)).1 = true <;>
      · simp [runLoop, ih, stepState, mapIdxFrom, defOutcome, List.countP_cons, h]
        all_goals omega

theorem mapIdxFrom_length (f : Nat → α → β) :
    ∀ (l : List α) (i : Nat), (mapIdxFrom f i l).length = l.length := by
  intro l
  induction l with
  | nil => intro i; rfl
  | cons x xs ih => intro i; simp [mapIdxFrom, ih]

theorem mapIdxFrom_get? (f : Nat → α → β) :
    ∀ (l : List α) (i j : Nat),
    (mapIdxFrom f i l).get? j = (l.get? j).map fun a => f (i + j) a := by
  intro l
  induction l with
  | nil => intro i j; simp [mapIdxFrom]
  | cons x xs ih =>
    intro i j
    cases j with
    | zero => simp [mapIdxFrom]
    | succ j =>
      simp only [mapIdxFrom, List.get?]
      rw [ih (i + 1) j]
      have hij : i + 1 + j = i + (j + 1) := by omega
      rw [hij]

theorem countP_not_created (l : List Outcome) :
    l.countP (fun o => !isCreated o) = l.countP isSkipped + l.countP isFailedO := by
  induction l with
  | nil => rfl
  | cons o rest ih =>
    rw [List.countP_cons, List.countP_cons, List.countP_cons, ih]
    cases o <;> simp [isCreated, isSkipped, isFailedO] <;> omega

theorem runSync_outcomes (defs : List TestCaseDef) (env : Nat → RemoteBehavior) :
    (runSync defs env).outcomes = runOutcomes defs env := by
  simp [runSync, runLoop_outcomes, initState, runOutcomes]

theorem runSync_calls (defs : List TestCaseDef) (env : Nat → RemoteBehavior) :
    (runSync defs env).calls = flattenL (runCallsPer defs env) := by
  simp [runSync, runLoop_calls, initState, runCallsPer]

theorem runSync_records (defs : List TestCaseDef) (env : Nat → RemoteBehavior) :
    (runSync defs env).failedTestCases = flattenL (runRecordsPer defs env) := by
  simp [runSync, runLoop_records, initState, runRecordsPer]

theorem runSync_successCount (defs : List TestCaseDef) (env : Nat → RemoteBehavior) :
    (runSync defs env).successCount = (runOutcomes defs env).countP isCreated := by
  simp [runSync, runLoop_successCount, initState, runOutcomes]

theorem runSync_failedCount (defs : List TestCaseDef) (env : Nat → RemoteBehavior) :
    (runSync defs env).failedCount =
      (runOutcomes defs env).countP isSkipped + (runOutcomes defs env).countP isFailedO := by
  rw [← countP_not_created]
  simp [runSync, runLoop_failedCount, initState, runOutcomes]

/-! ### Configuration resolver (`_loadConfig`) -/

/-- The raw values `nconf.get` returns for the six required fields; `none`
models an absent key and `""` an empty value (both are falsy and rejected). -/
structure RawConfig where
  keyVaultUrl : Option String
  azureDevOpsPatSecretName : Option String
  azureDevOpsOrgUrl : Option String
  azureDevOpsProject : Option String
  azureDevOpsPlanId : Option String
  azureDevOpsSuiteId : Option String
  deriving DecidableEq

/-- The validated configuration record stored on the client. -/
structure AdoConfig where
  keyVaultUrl : String
  azureDevOpsPatSecretName : String
  azureDevOpsOrgUrl : String
  azureDevOpsProject : String
  azureDevOpsPlanId : String
  azureDevOpsSuiteId : String
  deriving DecidableEq

/-- The per-field check of the validation loop in `_loadConfig`: a falsy
value throws `Missing required configuration: <field>`. -/
def requireField (name : String) (v : Option String) : Except String String :=
  match v with
  | none => .error ("Missing required configuration: " ++ name)
  | some s => if s = "" then .error ("Missing required configuration: " ++ name) else .ok s

/-- `_loadConfig`: fails when `findup` cannot locate config.json (the `none`
case), otherwise validates the six required fields in declaration order and
stores them. -/
def loadConfig : Option RawConfig → Except String AdoConfig
  | none => .error "Cannot find the config file config.json"
  | some raw => do
    let kv ← requireField "keyVaultUrl" raw.keyVaultUrl
    let sn ← requireField "azureDevOpsPatSecretName" raw.azureDevOpsPatSecretName
    let org ← requireField "azureDevOpsOrgUrl" raw.azureDevOpsOrgUrl
    let proj ← requireField "azureDevOpsProject" raw.azureDevOpsProject
    let plan ← requireField "azureDevOpsPlanId" raw.azureDevOpsPlanId
    let st ← requireField "azureDevOpsSuiteId" raw.azureDevOpsSuiteId
    pure ⟨kv, sn, org, proj, plan, st⟩

/-- All six required configuration values are truthy. -/
def allRequired (raw : RawConfig) : Bool :=
  truthyS raw.keyVaultUrl && truthyS raw.azureDevOpsPatSecretName &&
    truthyS raw.azureDevOpsOrgUrl && truthyS raw.azureDevOpsProject &&
    truthyS raw.azureDevOpsPlanId && truthyS raw.azureDevOpsSuiteId

theorem requireField_ok (n : String) (v : Option String) (h : truthyS v = true) :
    requireField n v = .ok (v.getD "") := by
  cases v with
  | none => simp [truthyS] at h
  | some s =>
    have hs : ¬s = "" := by simpa [truthyS] using h
    simp [requireField, hs]

theorem requireField_err (n : String) (v : Option String) (h : truthyS v = false) :
    requireField n v = .error ("Missing required configuration: " ++ n) := by
  cases v with
  | none => rfl
  | some s =>
    have hs : s = "" := by simpa [truthyS] using h
    simp [requireField, hs]

theorem loadConfig_ok (raw : RawConfig) (h : allRequired raw = true) :
    loadConfig (some raw) =
      .ok ⟨raw.keyVaultUrl.getD "", raw.azureDevOpsPatSecretName.getD "",
        raw.azureDevOpsOrgUrl.getD "", raw.azureDevOpsProject.getD "",
        raw.azureDevOpsPlanId.getD "", raw.azureDevOpsSuiteId.getD ""⟩ := by
  simp only [allRequired, Bool.and_eq_true] at h
  obtain ⟨⟨⟨⟨⟨h1, h2⟩, h3⟩, h4⟩, h5⟩, h6⟩ := h
  simp [loadConfig, requireField_ok _ _ h1, requireField_ok _ _ h2, requireField_ok _ _ h3,
    requireField_ok _ _ h4, requireField_ok _ _ h5, requireField_ok _ _ h6,
    Bind.bind, Except.bind, Functor.map, Except.map, pure, Except.pure]

theorem loadConfig_not_ok (raw : RawConfig) (h : allRequired raw = false) :
    ∀ cfg, loadConfig (some raw) ≠ .ok cfg := by
  intro cfg
  by_cases h1 : truthyS raw.keyVaultUrl = true
  · by_cases h2 : truthyS raw.azureDevOpsPatSecretName = true
    · by_cases h3 : truthyS raw.azureDevOpsOrgUrl = true
      · by_cases h4 : truthyS raw.azureDevOpsProject = true
        · by_cases h5 : truthyS raw.azureDevOpsPlanId = true
          · by_cases h6 : truthyS raw.azureDevOpsSuiteId = true
            · exfalso
              simp [allRequired, h1, h2, h3, h4, h5, h6] at h
            · simp [loadConfig, requireField_ok _ _ h1, requireField_ok _ _ h2,
                requireField_ok _ _ h3, requireField_ok _ _ h4, requireField_ok _ _ h5,
                requireField_err _ _ (Bool.eq_false_iff.mpr h6),
                Bind.bind, Except.bind, Functor.map, Except.map]
          · simp [loadConfig, requireField_ok _ _ h1, requireField_ok _ _ h2,
              requireField_ok _ _ h3, requireField_ok _ _ h4,
              requireField_err _ _ (Bool.eq_false_iff.mpr h5),
              Bind.bind, Except.bind, Functor.map, Except.map]
        · simp [loadConfig, requireField_ok _ _ h1, requireField_ok _ _ h2,
            requireField_ok _ _ h3, requireField_err _ _ (Bool.eq_false_iff.mpr h4),
            Bind.bind, Except.bind, Functor.map, Except.map]
      · simp [loadConfig, requireField_ok _ _ h1, requireField_ok _ _ h2,
          requireField_err _ _ (Bool.eq_false_iff.mpr h3),
          Bind.bind, Except.bind, Functor.map, Except.map]
    · simp [loadConfig, requireField_ok _ _ h1,
        requireField_err _ _ (Bool.eq_false_iff.mpr h2),
        Bind.bind, Except.bind, Functor.map, Except.map]
  · simp [loadConfig, requireField_err _ _ (Bool.eq_false_iff.mpr h1),
      Bind.bind, Except.bind, Functor.map, Except.map]

/-! ### Exponential-backoff helper (`retryAction` in utils) -/

/-- The observable behaviour of one `retryAction` call: its final result
(`error none` models JS rethrowing the initial `undefined` when the loop
never runs), how many times the action was invoked, and the delays waited. -/
structure RetryTrace (T : Type) where
  result : Except (Option String) T
  attempts : Nat
  delays : List Nat

/-- The `for (let attempt = 0; attempt < maxRetries; attempt++)` loop of
`retryAction`, with `remaining = maxRetries - attempt` as the recursion
measure: a success returns immediately; a failure stores the error and, when
it is not the last attempt, waits `initialDelay * 2 ^ attempt`. -/
def retryLoop (act : Nat → Except String T) (initialDelay : Nat) :
    Nat → Nat → Option String → RetryTrace T
  | _, 0, lastErr => ⟨.error lastErr, 0, []⟩
  | attempt, remaining + 1, _ =>
    match act attempt with
    | .ok v => ⟨.ok v, 1, []⟩
    | .error e =>
      if remaining = 0 then ⟨.error (some e), 1, []⟩
      else
        let rest := retryLoop act initialDelay (attempt + 1) remaining (some e)
        ⟨rest.result, rest.attempts + 1, (initialDelay * 2 ^ attempt) :: rest.delays⟩

/-- `retryAction(action, maxRetries, initialDelay)` as a trace. -/
def retryAction (act : Nat → Except String T) (maxRetries initialDelay : Nat) : RetryTrace T :=
  retryLoop act initialDelay 0 maxRetries none

theorem retryLoop_attempts_le (act : Nat → Except String T) (d : Nat) :
    ∀ (r a : Nat) (le : Option String), (retryLoop act d a r le).attempts ≤ r := by
  intro r
  induction r with
  | zero => intro a le; simp [retryLoop]
  | succ r ih =>
    intro a le
    simp only [retryLoop]
    cases act a with
    | ok v => simp
    | error e =>
      by_cases hr : r = 0
      · simp [hr]
      · simp [hr]
        exact ih (a + 1) (some e)

theorem retryLoop_success (act : Nat → Except String T) (d : Nat) :
    ∀ (r a j : Nat) (le : Option String) (v : T), j < r → act (a + j) = .ok v →
    (∀ k, k < j → ∃ e, act (a + k) = .error e) →
    retryLoop act d a r le =
      ⟨.ok v, j + 1, (List.range j).map fun k => d * 2 ^ (a + k)⟩ := by
  intro r
  induction r with
  | zero => intro a j le v hj; omega
  | succ r ih =>
    intro a j le v hj hok hfail
    cases j with
    | zero =>
      simp only [Nat.add_zero] at hok
      simp [retryLoop, hok]
    | succ j =>
      obtain ⟨e, he⟩ := hfail 0 (by omega)
      simp only [Nat.add_zero] at he
      have hr : ¬r = 0 := by omega
      have hrec := ih (a + 1) j (some e) v (by omega)
        (by rw [show a + 1 + j = a + (j + 1) by omega]; exact hok)
        (by
          intro k hk
          obtain ⟨e2, he2⟩ := hfail (k + 1) (by omega)
          exact ⟨e2, by rw [show a + 1 + k = a + (k + 1) by omega]; exact he2⟩)
      simp only [retryLoop, he, hr, if_false, hrec]
      refine congrArg _ ?_
      rw [List.range_succ_eq_map]
      simp only [List.map_cons, List.map_map]
      refine congrArg₂ _ (by simp) ?_
      refine List.map_congr_left ?_
      intro k _
      simp only [Function.comp]
      have hpq : a + 1 + k = a + (k + 1) := by omega
      rw [hpq]

theorem retryLoop_allFail (act : Nat → Except String T) (d : Nat) :
    ∀ (r a : Nat) (le : Option String) (e : String), 0 < r →
    (∀ k, k < r → ∃ e2, act (a + k) = .error e2) →
    act (a + (r - 1)) = .error e →
    retryLoop act d a r le =
      ⟨.error (some e), r, (List.range (r - 1)).map fun k => d * 2 ^ (a + k)⟩ := by
  intro r
  induction r with
  | zero => intro a le e h0; omega
  | succ r ih =>
    intro a le e _ hfail hlast
    by_cases hr : r = 0
    · subst hr
      have hlast2 : act a = .error e := by simpa using hlast
      simp [retryLoop, hlast2]
    · obtain ⟨e0, he0⟩ := hfail 0 (by omega)
      simp only [Nat.add_zero] at he0
      have hrec := ih (a + 1) (some e0) e (by omega)
        (by
          intro k hk
          obtain ⟨e2, he2⟩ := hfail (k + 1) (by omega)
          exact ⟨e2, by rw [show a + 1 + k = a + (k + 1) by omega]; exact he2⟩)
        (by
          rw [show a + 1 + (r - 1) = a + (r + 1 - 1) by omega]
          exact hlast)
      simp only [retryLoop, he0, hr, if_false, hrec]
      refine congrArg _ ?_
      rw [show r + 1 - 1 = (r - 1) + 1 by omega, List.range_succ_eq_map]
      simp only [List.map_cons, List.map_map]
      refine congrArg₂ _ (by simp) ?_
      refine List.map_congr_left ?_
      intro k _
      simp only [Function.comp]
      have hpq : a + 1 + k = a + (k + 1) := by omega
      rw [hpq]

/-! ### Helper lemmas for the tag string -/

theorem filterBoolean_append (a b : List (Option String)) :
    filterBoolean (a ++ b) = filterBoolean a ++ filterBoolean b := by
  simp [filterBoolean, List.filterMap_append]

theorem filterBoolean_nil : filterBoolean [] = [] := rfl

theorem filterBoolean_cons_none (l : List (Option String)) :
    filterBoolean (none :: l) = filterBoolean l := rfl

theorem filterBoolean_cons_some (s : String) (l : List (Option String)) :
    filterBoolean (some s :: l) =
      if s = "" then filterBoolean l else s :: filterBoolean l := by
  by_cases hs : s = "" <;> simp [filterBoolean, List.filterMap_cons, hs]

theorem filterBoolean_map_some (l : List String) :
    filterBoolean (l.map some) = l.filter fun s => !(s == "") := by
  induction l with
  | nil => rfl
  | cons x xs ih =>
    by_cases hx : x = ""
    · subst hx
      simp [filterBoolean_cons_some, List.filter_cons, ih]
    · simp [filterBoolean_cons_some, List.filter_cons, hx, ih]

theorem append_ne_empty_of_left (p x : String) (hp : p.data ≠ []) : ¬(p ++ x) = "" := by
  intro h
  have hd := congrArg String.data h
  rw [sdata_append] at hd
  have h0 : ("" : String).data = [] := rfl
  rw [h0] at hd
  rcases List.append_eq_nil.mp hd with ⟨hpd, _⟩
  exact hp hpd

/-! ### Concrete fixtures used by counterexamples and witnesses -/

/-- A fully valid definition. -/
def tcValid : TestCaseDef :=
  ⟨some "TC-1", some "Search works", some 1, some "Search", some ["Regression"],
    some [⟨"Open the page", "Page opens"⟩]⟩

/-- A definition with a title but an empty steps list: the skip branch runs. -/
def tcNoSteps : TestCaseDef :=
  ⟨some "TC-2", some "No steps case", none, none, none, some []⟩

/-- A valid definition whose remote create call will throw in the C3 run. -/
def tcCreateThrows : TestCaseDef :=
  ⟨some "TC-3", some "Create fails", none, none, none, some [⟨"Do a thing", "It is done"⟩]⟩

/-- An environment in which every remote call pair succeeds with id 101. -/
def envAll101 : Nat → RemoteBehavior := fun _ => .ok 101

/-- The three-definition source list of claim C3. -/
def defsC3 : List TestCaseDef := [tcValid, tcNoSteps, tcCreateThrows]

/-- The remote oracle of claim C3: `createTestCase` throws for the third
definition only. -/
def envC3 : Nat → RemoteBehavior := fun i =>
  if i = 2 then .createFails "Request failed with status code 500" else .ok 101

/-! ### Claims C1 to C4 -/

/-- C1 counterexample: a run with a single skipped definition (missing
steps) ends with zero Failed outcomes, yet the process exit code is 1,
because the skip branch increments `failedCount`; so the claimed
equivalence "exit code 0 iff zero Failed" is false on the code. -/
theorem claim_C1_counterexample :
    (runSync [tcNoSteps] envAll101).outcomes.countP isFailedO = 0 ∧
      exitCode (runSync [tcNoSteps] envAll101) = 1 := by decide

/-- C1 (corrected): the exit code is 0 iff zero definitions ended in the
Failed state AND zero ended in the Skipped state — skipped definitions are
counted in `failedCount` and force exit code 1 — and an empty test-case
list exits with 0. -/
theorem claim_C1_amended : ∀ (defs : List TestCaseDef) (env : Nat → RemoteBehavior),
    (exitCode (runSync defs env) = 0 ↔
      (runSync defs env).outcomes.countP isFailedO = 0 ∧
        (runSync defs env).outcomes.countP isSkipped = 0) ∧
    exitCode (runSync [] env) = 0 := by
  intro defs env
  constructor
  · have he : exitCode (runSync defs env) = 0 ↔ (runSync defs env).failedCount = 0 := by
      unfold exitCode
      split <;> omega
    rw [he, runSync_failedCount, runSync_outcomes]
    omega
  · rfl

/-- C2: a definition with a falsy title or an empty/missing steps array
triggers no remote call at its position, is classified by the skip branch
with reason `Missing title or steps`, and processing still yields one
outcome for every definition in the list. -/
theorem claim_C2 : ∀ (defs : List TestCaseDef) (env : Nat → RemoteBehavior) (i : Nat)
    (tc : TestCaseDef), defs.get? i = some tc → isValid tc = false →
    (runSync defs env).outcomes.get? i = some (.skipped "Missing title or steps") ∧
      (runCallsPer defs env).get? i = some [] ∧
      (runSync defs env).calls = flattenL (runCallsPer defs env) ∧
      (runSync defs env).outcomes.length = defs.length := by
  intro defs env i tc hget hinv
  refine ⟨?_, ?_, runSync_calls defs env, ?_⟩
  · rw [runSync_outcomes, runOutcomes, mapIdxFrom_get?, hget]
    simp [defOutcome, processOne, hinv]
  · rw [runCallsPer, mapIdxFrom_get?, hget]
    simp [defCalls, processOne, hinv]
  · rw [runSync_outcomes, runOutcomes, mapIdxFrom_length]

theorem claim_C2_witness :
    (runSync [tcNoSteps] envAll101).outcomes.get? 0 =
        some (.skipped "Missing title or steps") ∧
      (runCallsPer [tcNoSteps] envAll101).get? 0 = some [] := by
  have h := claim_C2 [tcNoSteps] envAll101 0 tcNoSteps rfl (by decide)
  exact ⟨h.1, h.2.1⟩

/-- C3 counterexample: in the three-definition scenario the final summary's
failed counter is 2, not the claimed 1, because the skipped definition is
counted in `failedCount` and the summary has no separate Skipped counter. -/
theorem claim_C3_counterexample :
    (runSync defsC3 envC3).failedCount = 2 ∧ ¬(runSync defsC3 envC3).failedCount = 1 := by
  decide

/-- C3 (corrected): in the scenario — first definition valid, second with an
empty steps list, third whose create call throws — the outcomes are one
Created, one Skipped and one Failed, but the printed summary counters are
`successCount = 1` and `failedCount = 2` (the skip is counted as a
failure), and the process exits with code 1. -/
theorem claim_C3_amended :
    (runSync defsC3 envC3).outcomes =
        [.created 101, .skipped "Missing title or steps",
          .failed "Request failed with status code 500"] ∧
      (runSync defsC3 envC3).successCount = 1 ∧
      (runSync defsC3 envC3).failedCount = 2 ∧
      exitCode (runSync defsC3 envC3) = 1 := by
  decide

/-- C4: for a valid definition whose remote calls succeed, the loop makes
exactly one `createTestCase` call followed by exactly one `addToSuite`
call, and `addToSuite` receives exactly the work-item id the create call
returned. -/
theorem claim_C4 : ∀ (defs : List TestCaseDef) (env : Nat → RemoteBehavior) (i : Nat)
    (tc : TestCaseDef) (wid : Nat), defs.get? i = some tc → isValid tc = true →
    env i = .ok wid →
    (runCallsPer defs env).get? i =
        some [.create (buildTestCaseBody tc), .addToSuite wid] ∧
      (runSync defs env).calls = flattenL (runCallsPer defs env) := by
  intro defs env i tc wid hget hval henv
  refine ⟨?_, runSync_calls defs env⟩
  rw [runCallsPer, mapIdxFrom_get?, hget]
  simp [defCalls, processOne, hval, henv]

theorem claim_C4_witness :
    (runCallsPer defsC3 envC3).get? 0 =
      some [.create (buildTestCaseBody tcValid), .addToSuite 101] := by
  exact (claim_C4 defsC3 envC3 0 tcValid 101 rfl (by decide) rfl).1

/-! ### Claims C5 to C10 -/

/-- C5: the escaper rewrites exactly the characters `&`, `<`, `>` (to
`&amp;`, `&lt;`, `&gt;`) and leaves every other character — in particular
`"` — unchanged; and for arbitrary action/expected strings the generated
step markup is a well-formed fragment: it is the rendering of an XML
element tree whose text nodes are escaped character data. -/
theorem claim_C5 :
    (∀ s : String, (xmlEscape s).data = concatMapL escChar s.data) ∧
    escChar '&' = "&amp;".data ∧ escChar '<' = "&lt;".data ∧ escChar '>' = "&gt;".data ∧
    (∀ c : Char, c ≠ '&' → c ≠ '<' → c ≠ '>' → escChar c = [c]) ∧
    (∀ steps : List StepDefinition,
      Xml.wf (stepsTree steps) = true ∧
        (buildStepsXml steps).data = Xml.render (stepsTree steps)) := by
  refine ⟨xmlEscape_data, by decide, by decide, by decide, ?_, ?_⟩
  · intro c h1 h2 h3
    simp [escChar, h1, h2, h3]
  · intro steps
    exact ⟨stepsTree_wf steps, buildStepsXml_render steps⟩

theorem claim_C5_witness :
    (xmlEscape "a<b & c>\"d\"").data = concatMapL escChar "a<b & c>\"d\"".data ∧
      escChar '"' = ['"'] := by
  exact ⟨claim_C5.1 "a<b & c>\"d\"",
    claim_C5.2.2.2.2.1 '"' (by decide) (by decide) (by decide)⟩

/-- A definition with an empty string among its explicit tags. -/
def tcEmptyTag : TestCaseDef :=
  ⟨none, some "Tagged case", none, none, some ["UI", ""], some []⟩

/-- C6 counterexample: with explicit tags `["UI", ""]` and no id/category
the code produces `"UI"` — `filter(Boolean)` drops the empty explicit tag —
while the claim's construction (all explicit tags joined in order) gives
`"UI; "`. -/
theorem claim_C6_counterexample : ¬buildTags tcEmptyTag = specTagsC6 tcEmptyTag := by
  decide

/-- C6 (corrected): the synthesized tag string is the `; `-join of the
truthy (non-empty) explicit tags in their original order, then
`LogicalID:<id>` when `id` is truthy, then `Category:<category>` when
`category` is truthy; falsy entries — including empty explicit tags —
contribute no element. -/
theorem claim_C6_amended : ∀ tc : TestCaseDef,
    buildTags tc = String.intercalate "; "
      ((tc.tags.getD []).filter (fun s => !(s == "")) ++
        (if truthyS tc.id then ["LogicalID:" ++ tc.id.getD ""] else []) ++
        (if truthyS tc.category then ["Category:" ++ tc.category.getD ""] else [])) := by
  intro tc
  have hL : ¬("LogicalID:" ++ tc.id.getD "") = "" :=
    append_ne_empty_of_left _ _ (by decide)
  have hK : ¬("Category:" ++ tc.category.getD "") = "" :=
    append_ne_empty_of_left _ _ (by decide)
  unfold buildTags
  refine congrArg _ ?_
  show filterBoolean (buildTagParts tc) = _
  rw [buildTagParts, filterBoolean_append, filterBoolean_map_some]
  by_cases hI : truthyS tc.id = true <;> by_cases hC : truthyS tc.category = true <;>
    simp [hI, hC, filterBoolean_cons_some, filterBoolean_cons_none, filterBoolean_nil,
      hL, hK, List.append_assoc]

/-! ### Claim C7 -/

/-- C7: every definition is processed exactly once in original order and
yields exactly one outcome at its own position; a thrown error while
creating or linking a valid definition records exactly that item as failed
with the error message, and the loop still produces an outcome for every
definition (per-item failures never abort the run). -/
theorem claim_C7 : ∀ (defs : List TestCaseDef) (env : Nat → RemoteBehavior),
    (runSync defs env).outcomes.length = defs.length ∧
    (∀ (i : Nat) (tc : TestCaseDef), defs.get? i = some tc →
      (runSync defs env).outcomes.get? i = some (processOne tc (env i)).1) ∧
    (∀ (i : Nat) (tc : TestCaseDef) (msg : String), defs.get? i = some tc →
      isValid tc = true →
      (env i = .createFails msg ∨ ∃ wid, env i = .addFails wid msg) →
      (runSync defs env).outcomes.get? i = some (.failed msg) ∧
        (runRecordsPer defs env).get? i = some [⟨tc.id, tc.title, msg⟩]) ∧
    (runSync defs env).failedTestCases = flattenL (runRecordsPer defs env) := by
  intro defs env
  refine ⟨?_, ?_, ?_, runSync_records defs env⟩
  · rw [runSync_outcomes, runOutcomes, mapIdxFrom_length]
  · intro i tc hget
    rw [runSync_outcomes, runOutcomes, mapIdxFrom_get?, hget]
    simp [defOutcome]
  · intro i tc msg hget hval henv
    constructor
    · rw [runSync_outcomes, runOutcomes, mapIdxFrom_get?, hget]
      rcases henv with h | ⟨wid, h⟩ <;> simp [defOutcome, processOne, hval, h]
    · rw [runRecordsPer, mapIdxFrom_get?, hget]
      rcases henv with h | ⟨wid, h⟩ <;>
        simp [defRecords, defOutcome, processOne, hval, h, recordOf]

theorem claim_C7_witness :
    (runSync defsC3 envC3).outcomes.get? 2 =
        some (.failed "Request failed with status code 500") ∧
      (runSync defsC3 envC3).outcomes.length = defsC3.length := by
  refine ⟨((claim_C7 defsC3 envC3).2.2.1 2 tcCreateThrows
    "Request failed with status code 500" rfl (by decide) (Or.inl rfl)).1, ?_⟩
  exact (claim_C7 defsC3 envC3).1

/-! ### Claim C8 -/

/-- C8: the configuration resolver fails exactly when the config file is not
found or any of the six required fields is missing or empty; otherwise it
returns a record populated with all six values. -/
theorem claim_C8 : ∀ found : Option RawConfig,
    ((∃ cfg, loadConfig found = .ok cfg) ↔
      ∃ raw, found = some raw ∧ allRequired raw = true) ∧
    (∀ raw, found = some raw → allRequired raw = true →
      loadConfig found =
        .ok ⟨raw.keyVaultUrl.getD "", raw.azureDevOpsPatSecretName.getD "",
          raw.azureDevOpsOrgUrl.getD "", raw.azureDevOpsProject.getD "",
          raw.azureDevOpsPlanId.getD "", raw.azureDevOpsSuiteId.getD ""⟩) := by
  intro found
  constructor
  · constructor
    · rintro ⟨cfg, hcfg⟩
      cases found with
      | none => simp [loadConfig] at hcfg
      | some raw =>
        refine ⟨raw, rfl, ?_⟩
        by_contra hne
        have hfalse : allRequired raw = false := by
          cases har : allRequired raw
          · rfl
          · exact absurd har hne
        exact loadConfig_not_ok raw hfalse cfg hcfg
    · rintro ⟨raw, rfl, hall⟩
      exact ⟨_, loadConfig_ok raw hall⟩
  · rintro raw rfl hall
    exact loadConfig_ok raw hall

/-- A populated raw configuration. -/
def rawConfigDemo : RawConfig :=
  ⟨some "https://antuxdev.vault.azure.net/", some "ado-pat",
    some "https://dev.azure.com/org/", some "XboxExperiences",
    some "22228689", some "60819220"⟩

theorem claim_C8_witness :
    loadConfig (some rawConfigDemo) =
      .ok ⟨"https://antuxdev.vault.azure.net/", "ado-pat",
        "https://dev.azure.com/org/", "XboxExperiences", "22228689", "60819220"⟩ := by
  exact (claim_C8 (some rawConfigDemo)).2 rawConfigDemo rfl (by decide)

/-! ### Claim C9 -/

/-- C9: `retryAction` invokes the action at most `maxRetries` times; if the
attempt at index `j` is the first to succeed, its value is returned after
exactly `j + 1` invocations, having waited `initialDelay * 2 ^ k` after
each failed attempt `k < j`; and when every attempt fails, the last error
is rethrown after exactly `maxRetries` invocations, with no delay after the
final attempt. -/
theorem claim_C9 : ∀ (T : Type) (act : Nat → Except String T) (maxRetries initialDelay : Nat),
    (retryAction act maxRetries initialDelay).attempts ≤ maxRetries ∧
    (∀ (j : Nat) (v : T), j < maxRetries → act j = .ok v →
      (∀ k, k < j → ∃ e, act k = .error e) →
      retryAction act maxRetries initialDelay =
        ⟨.ok v, j + 1, (List.range j).map fun k => initialDelay * 2 ^ k⟩) ∧
    (∀ e : String, 0 < maxRetries →
      (∀ k, k < maxRetries → ∃ e2, act k = .error e2) →
      act (maxRetries - 1) = .error e →
      retryAction act maxRetries initialDelay =
        ⟨.error (some e), maxRetries,
          (List.range (maxRetries - 1)).map fun k => initialDelay * 2 ^ k⟩) := by
  intro T act mr d
  refine ⟨retryLoop_attempts_le act d mr 0 none, ?_, ?_⟩
  · intro j v hj hok hfail
    have h := retryLoop_success act d mr 0 j none v hj (by simpa using hok)
      (by intro k hk; simpa using hfail k hk)
    simpa [retryAction] using h
  · intro e h0 hfail hlast
    have h := retryLoop_allFail act d mr 0 none e h0
      (by intro k hk; simpa using hfail k hk) (by simpa using hlast)
    simpa [retryAction] using h

/-- An action that fails twice with a network error, then succeeds. -/
def actC9 : Nat → Except String Nat := fun k =>
  if k < 2 then .error "ECONNRESET" else .ok 42

theorem claim_C9_witness :
    retryAction actC9 3 1000 = ⟨.ok 42, 3, [1000, 2000]⟩ := by
  have h := (claim_C9 Nat actC9 3 1000).2.1 2 42 (by decide) rfl
    (by
      intro k hk
      exact ⟨"ECONNRESET", by simp [actC9, hk]⟩)
  have h2 : ((List.range 2).map fun k => 1000 * 2 ^ k) = [1000, 2000] := by decide
  rw [h, h2]

/-! ### Claim C10 -/

/-- C10: the field-patch body contains a Priority operation iff the
definition's priority is truthy; a definition with priority 0 or no
priority yields exactly the three base operations (Title, Steps, Tags). -/
theorem claim_C10 : ∀ tc : TestCaseDef,
    ((buildTestCaseBody tc).any fun op =>
        op.path == "/fields/Microsoft.VSTS.Common.Priority") = truthyN tc.priority ∧
    (truthyN tc.priority = false →
      buildTestCaseBody tc =
        [⟨"add", "/fields/System.Title", jsonOfOptStr tc.title⟩,
         ⟨"add", "/fields/Microsoft.VSTS.TCM.Steps",
           .str (buildStepsXml (tc.steps.getD []))⟩,
         ⟨"add", "/fields/System.Tags", .str (buildTags tc)⟩]) := by
  intro tc
  have hb1 : (("/fields/System.Title" : String) ==
      "/fields/Microsoft.VSTS.Common.Priority") = false := by decide
  have hb2 : (("/fields/Microsoft.VSTS.TCM.Steps" : String) ==
      "/fields/Microsoft.VSTS.Common.Priority") = false := by decide
  have hb3 : (("/fields/System.Tags" : String) ==
      "/fields/Microsoft.VSTS.Common.Priority") = false := by decide
  have hb4 : (("/fields/Microsoft.VSTS.Common.Priority" : String) ==
      "/fields/Microsoft.VSTS.Common.Priority") = true := by decide
  constructor
  · cases hp : truthyN tc.priority <;>
      simp [buildTestCaseBody, hp, List.any_append, List.any_cons, List.any_nil,
        hb1, hb2, hb3, hb4]
  · intro h
    simp [buildTestCaseBody, h]

/-- A definition with priority 0: the Priority operation is omitted. -/
def tcPriorityZero : TestCaseDef :=
  ⟨some "TC-0", some "Zero priority", some 0, none, none, some [⟨"Act", "Expect"⟩]⟩

theorem claim_C10_witness :
    buildTestCaseBody tcPriorityZero =
      [⟨"add", "/fields/System.Title", jsonOfOptStr tcPriorityZero.title⟩,
       ⟨"add", "/fields/Microsoft.VSTS.TCM.Steps",
         .str (buildStepsXml (tcPriorityZero.steps.getD []))⟩,
       ⟨"add", "/fields/System.Tags", .str (buildTags tcPriorityZero)⟩] := by
  exact (claim_C10 tcPriorityZero).2 (by decide)

end XboxSync
